import Mathlib

/-!
# Verification development for `main/main_functions.cc`

A shallow embedding of the image-classification demo harness: the placeholder
image loader `LoadImage`, the one-time `setup` and the per-cycle `loop`.

Modelling conventions.

* The process-wide globals of the anonymous namespace are the record `Globals`;
  `setup` and `loop` pass it explicitly.
* A pointer together with the object it points to is an `Option`: `none` is
  `nullptr`.
* The inference engine (model blob, `AllocateTensors`, `input(0)`, `output(0)`,
  `Invoke`), the filesystem and `rand()` are outside the program.  What they
  answer is supplied by the records `SetupEnv` and `CycleEnv`, one per call.
* Undefined behaviour of the C++ program (null dereference, reading or writing
  past the end of an array) is an explicit `Fault`; every function that can hit
  one returns `Except Fault _`.
* Text written to `std::cout` / `std::cerr`, and the call of `Invoke`, are
  recorded as a list of `Event`s in program order.
* The constants `TFLITE_SCHEMA_VERSION` (engine header) and
  `kInferencesPerCycle` (`constants.h`) are not part of the source file; they
  are the parameters collected in `Constants`.
-/

namespace Esp

/-! ## Data model -/

/-- Status code of the engine (`TfLiteStatus`); the program only compares it with `kTfLiteOk`. -/
inductive TfLiteStatus where
  | kTfLiteOk
  | kTfLiteError
  | kTfLiteDelegateError
  | kTfLiteApplicationError
  deriving DecidableEq, Repr

/-- Undefined behaviour the C++ program can run into. -/
inductive Fault where
  /-- Access through a null `TfLiteTensor*` / `MicroInterpreter*`. -/
  | nullDereference
  /-- Read of `buffer[i]` with `i` not below `buffer.size()`. -/
  | bufferOverread
  /-- Access of `data.int8[i]` or `dims->data[i]` outside the tensor's storage. -/
  | tensorOutOfBounds
  /-- Read of `kCategoryLabels[max_index]` with `max_index` not below 3. -/
  | labelOutOfBounds
  deriving DecidableEq, Repr

/-- The fields of `TfLiteTensor` the program touches.  `data` is the backing
storage viewed as `int8_t` elements, `dims` is `dims->data`. -/
structure TfLiteTensor where
  bytes : Nat
  data : List Int
  dims : List Int
  deriving DecidableEq, Repr

/-- The mapped model (`const tflite::Model*`); only `version()` is used. -/
structure Model where
  version : Nat
  deriving DecidableEq, Repr

/-- The interpreter object `static_interpreter`; its behaviour is external and
comes from `SetupEnv` / `CycleEnv`. -/
structure MicroInterpreter where
  deriving DecidableEq, Repr

/-- Constants defined outside the source file. -/
structure Constants where
  TFLITE_SCHEMA_VERSION : Nat
  kInferencesPerCycle : Int
  deriving DecidableEq, Repr

/-- The globals of the anonymous namespace. -/
structure Globals where
  model : Option Model
  interpreter : Option MicroInterpreter
  input : Option TfLiteTensor
  output : Option TfLiteTensor
  inference_count : Int
  deriving DecidableEq, Repr

/-- Static initialisation: all pointers `nullptr`, `inference_count = 0`. -/
def initGlobals : Globals :=
  { model := none, interpreter := none, input := none, output := none, inference_count := 0 }

/-- Size of `tensor_arena` in bytes. -/
def kTensorArenaSize : Nat := 20000

/-- The label table `kCategoryLabels[3]`. -/
def kCategoryLabels : List String := ["cebollas", "limon", "papas"]

/-- A file that can be opened: its bytes (each below 256) and whether
`file.read` delivers all of them. -/
structure File where
  bytes : List Nat
  read_ok : Bool
  deriving DecidableEq, Repr

/-- What the program writes and which engine call it makes, in program order. -/
inductive Event where
  /-- `std::cerr << "Failed to open file: " << filename`. -/
  | failedToOpen (filename : String)
  /-- `std::cerr << "Failed to read file: " << filename`. -/
  | failedToRead (filename : String)
  /-- `std::cout << "Successfully loaded image: " << filename`. -/
  | loaded (filename : String)
  /-- `std::cerr << "Model provided is schema version ..."`. -/
  | schemaMismatch (version supported : Nat)
  /-- `std::cerr << "AllocateTensors() failed"`. -/
  | allocateFailed
  /-- `std::cout << "Found image: " << image`. -/
  | found (image : String)
  /-- `std::cerr << "Image not found: " << image`. -/
  | notFound (image : String)
  /-- `std::cerr << "Failed to load image: " << image_path`. -/
  | failedToLoad (image_path : String)
  /-- The call `interpreter->Invoke()`. -/
  | invokeCalled
  /-- `std::cerr << "Invoke failed on image: " << image_path`. -/
  | invokeFailed (image_path : String)
  /-- `std::cout << "Image: " << image_path << ", Prediction: " << predicted_label`. -/
  | prediction (image_path label : String)
  deriving DecidableEq, Repr

/-- Whether the event is the prediction output line. -/
def Event.isPrediction : Event → Bool
  | .prediction _ _ => true
  | _ => false

/-- What the engine answers during `setup`. -/
structure SetupEnv where
  /-- Result of `model->version()` for the embedded model `fruits`. -/
  model_version : Nat
  /-- Result of `interpreter->AllocateTensors()`. -/
  allocate_status : TfLiteStatus
  /-- Result of `interpreter->input(0)`. -/
  input0 : Option TfLiteTensor
  /-- Result of `interpreter->output(0)`. -/
  output0 : Option TfLiteTensor
  deriving DecidableEq, Repr

/-- What the outside world answers during one call of `loop`. -/
structure CycleEnv where
  /-- The files that can be opened, by path; a path not listed cannot be opened. -/
  files : List (String × File)
  /-- The value returned by `rand()`. -/
  rand : Nat
  /-- The status returned by `interpreter->Invoke()`. -/
  invoke_status : TfLiteStatus
  /-- The scores `Invoke` leaves in the output tensor's storage. -/
  invoke_scores : List Int
  deriving DecidableEq, Repr

/-! ## Machine arithmetic -/

/-- `static_cast<int8_t>` of a byte: the value modulo 256 in `[-128, 127]`. -/
def static_cast_int8 (b : Nat) : Int :=
  if b % 256 < 128 then ((b % 256 : Nat) : Int) else ((b % 256 : Nat) : Int) - 256

/-- Value of a 32-bit `int` after wrap-around (two's complement).  Used for
`inference_count += 1`; the results below are stated where the sum does not overflow. -/
def wrapInt32 (x : Int) : Int :=
  (x + 2147483648) % 4294967296 - 2147483648

/-! ## `LoadImage` -/

/-- The copy loop `for (int i = 0; i < input_tensor->bytes; ++i)
input_tensor->data.int8[i] = static_cast<int8_t>(buffer[i]);`.
The first argument counts the iterations still to run (`bytes - i`).  Reading `buffer[i]`
at or past `buffer.size()` and writing outside the tensor's storage are faults.  The tensor
lives in the `kTensorArenaSize`-byte arena, so the `int` index stays far below `INT_MAX`. -/
def copyLoop (buffer : List Nat) : Nat → Nat → List Int → Except Fault (List Int)
  | 0, _, data => .ok data
  | k + 1, i, data =>
    match buffer[i]? with
    | none => .error .bufferOverread
    | some b =>
      if i < data.length then copyLoop buffer k (i + 1) (data.set i (static_cast_int8 b))
      else .error .tensorOutOfBounds

/-- `bool LoadImage(const char* filename, TfLiteTensor* input_tensor)`:
the returned flag, the tensor behind `input_tensor` afterwards, and the output.
`buffer` is the vector of `size` bytes read from the file; `input_tensor` is first
dereferenced in the copy loop, after both early returns. -/
def LoadImage (files : List (String × File)) (filename : String)
    (input_tensor : Option TfLiteTensor) :
    Except Fault (Bool × Option TfLiteTensor × List Event) :=
  match files.lookup filename with
  | none => .ok (false, input_tensor, [.failedToOpen filename])
  | some file =>
    if !file.read_ok then .ok (false, input_tensor, [.failedToRead filename])
    else
      match input_tensor with
      | none => .error .nullDereference
      | some t =>
        match copyLoop file.bytes t.bytes 0 t.data with
        | .error f => .error f
        | .ok data => .ok (true, some { t with data := data }, [.loaded filename])

/-! ## `setup` -/

/-- `void setup()`. -/
def setup (c : Constants) (env : SetupEnv) (g : Globals) : Globals × List Event :=
  let g1 := { g with model := some { version := env.model_version } }
  if env.model_version ≠ c.TFLITE_SCHEMA_VERSION then
    (g1, [.schemaMismatch env.model_version c.TFLITE_SCHEMA_VERSION])
  else
    let g2 := { g1 with interpreter := some {} }
    if env.allocate_status ≠ .kTfLiteOk then
      (g2, [.allocateFailed])
    else
      ({ g2 with input := env.input0, output := env.output0, inference_count := 0 }, [])

/-- The driver is Ready when the interpreter and both tensor handles are bound. -/
def Ready (g : Globals) : Bool :=
  g.interpreter.isSome && g.input.isSome && g.output.isSome

/-! ## `loop` -/

/-- The candidate paths `images[]`. -/
def images : List String := ["images/cebolla.jpg", "images/papa.jpg", "images/limon.jpg"]

/-- One iteration of the presence probe over `images`. -/
def probe (files : List (String × File)) (image : String) : Event :=
  if (files.lookup image).isSome then .found image else .notFound image

/-- `images[rand() % 3]`. -/
def image_path (rand : Nat) : String :=
  images.get ⟨rand % 3, Nat.mod_lt rand (by decide)⟩

/-- The scan `for (int i = 1; i < n; ++i) if (data[i] > data[max_index]) max_index = i;`.
The first argument counts the iterations still to run (`n - i`). -/
def scanLoop (data : List Int) : Nat → Nat → Nat → Except Fault Nat
  | 0, _, max_index => .ok max_index
  | k + 1, i, max_index =>
    match data[i]?, data[max_index]? with
    | some a, some b => scanLoop data k (i + 1) (if a > b then i else max_index)
    | _, _ => .error .tensorOutOfBounds

/-- The arg-max scan of `loop` over the output tensor, with bound
`output->dims->data[1]`; returns `max_index`. -/
def scan (output : TfLiteTensor) : Except Fault Nat :=
  match output.dims[1]? with
  | none => .error .tensorOutOfBounds
  | some n => scanLoop output.data (n - 1).toNat 1 0

/-- The lookup `kCategoryLabels[max_index]`. -/
def lookupLabel (max_index : Nat) : Except Fault String :=
  match kCategoryLabels[max_index]? with
  | none => .error .labelOutOfBounds
  | some label => .ok label

/-- The value of `predicted_label` in `loop`: scan, then table lookup. -/
def predicted_label (output : TfLiteTensor) : Except Fault String :=
  match scan output with
  | .error f => .error f
  | .ok max_index => lookupLabel max_index

/-- The counter update `inference_count += 1; if (inference_count >=
kInferencesPerCycle) inference_count = 0;`. -/
def nextCount (c : Constants) (inference_count : Int) : Int :=
  let count := wrapInt32 (inference_count + 1)
  if count ≥ c.kInferencesPerCycle then 0 else count

/-- `void loop()`: the globals afterwards and the output of the cycle.
`Invoke` is called once the image is loaded; whatever its status, the output tensor then
holds the scores the engine left there (`env.invoke_scores`). -/
def loop (c : Constants) (env : CycleEnv) (g : Globals) : Except Fault (Globals × List Event) :=
  let probes := images.map (probe env.files)
  let path := image_path env.rand
  match LoadImage env.files path g.input with
  | .error f => .error f
  | .ok (false, input, ev) => .ok ({ g with input := input }, probes ++ ev ++ [.failedToLoad path])
  | .ok (true, input, ev) =>
    match g.interpreter with
    | none => .error .nullDereference
    | some _ =>
      let output := g.output.map (fun t => { t with data := env.invoke_scores })
      let g1 := { g with input := input, output := output }
      if env.invoke_status ≠ .kTfLiteOk then
        .ok (g1, probes ++ ev ++ [.invokeCalled, .invokeFailed path])
      else
        match output with
        | none => .error .nullDereference
        | some out =>
          match predicted_label out with
          | .error f => .error f
          | .ok label =>
            .ok ({ g1 with inference_count := nextCount c g.inference_count },
                 probes ++ ev ++ [.invokeCalled, .prediction path label])

/-- Consecutive calls of `loop`, one per environment; the globals after the last call. -/
def runLoops (c : Constants) : List CycleEnv → Globals → Except Fault Globals
  | [], g => .ok g
  | env :: envs, g =>
    match loop c env g with
    | .error f => .error f
    | .ok (g1, _) => runLoops c envs g1

/-- The value of `inference_count` after each of the consecutive calls of `loop`. -/
def countTrace (c : Constants) : List CycleEnv → Globals → Except Fault (List Int)
  | [], _ => .ok []
  | env :: envs, g =>
    match loop c env g with
    | .error f => .error f
    | .ok (g1, _) =>
      match countTrace c envs g1 with
      | .error f => .error f
      | .ok counts => .ok (g1.inference_count :: counts)

/-- The cycle fails: the image does not load, or `Invoke` reports a non-success status. -/
def cycleFails (env : CycleEnv) (g : Globals) : Bool :=
  match LoadImage env.files (image_path env.rand) g.input with
  | .ok (false, _, _) => true
  | _ => decide (env.invoke_status ≠ .kTfLiteOk)

/-- Loop invariant of the scan: `max_index` holds the first maximum of the scores below `i`. -/
def ScanInv (data : List Int) (i m : Nat) : Prop :=
  m < i ∧ ∃ b, data[m]? = some b ∧
    (∀ j a, j < i → data[j]? = some a → a ≤ b) ∧
    (∀ j a, j < m → data[j]? = some a → a < b)

/-! ## Sample inputs -/

/-- An output tensor of shape `[1, n]` holding the given `n` scores. -/
def outputOf (scores : List Int) : TfLiteTensor :=
  { bytes := scores.length, data := scores, dims := [1, scores.length] }

/-- A four-byte input tensor, zero-filled. -/
def input4 : TfLiteTensor := { bytes := 4, data := [0, 0, 0, 0], dims := [1, 4] }

/-- Globals as a successful `setup` leaves them, with `input4` and three output scores. -/
def readyGlobals : Globals :=
  { model := some { version := 3 }, interpreter := some {},
    input := some input4, output := some (outputOf [0, 0, 0]), inference_count := 0 }

/-- Constants with schema version 3 and threshold 5. -/
def c5 : Constants := { TFLITE_SCHEMA_VERSION := 3, kInferencesPerCycle := 5 }

/-- All three images present with four bytes each. -/
def files3 : List (String × File) :=
  [("images/cebolla.jpg", { bytes := [1, 200, 3, 255], read_ok := true }),
   ("images/papa.jpg", { bytes := [7, 7, 7, 7], read_ok := true }),
   ("images/limon.jpg", { bytes := [0, 128, 127, 9], read_ok := true })]

/-- A cycle in which the image loads and `Invoke` succeeds with scores `[5, 5, 3]`. -/
def goodEnv : CycleEnv :=
  { files := files3, rand := 0, invoke_status := .kTfLiteOk, invoke_scores := [5, 5, 3] }

/-- A cycle in which no image file exists. -/
def missingEnv : CycleEnv :=
  { files := [], rand := 0, invoke_status := .kTfLiteOk, invoke_scores := [5, 5, 3] }

/-- A cycle in which the image loads and `Invoke` reports an error. -/
def invokeErrEnv : CycleEnv :=
  { files := files3, rand := 1, invoke_status := .kTfLiteError, invoke_scores := [9, 9, 9, 9] }

/-! ## Lemmas on the arg-max scan -/

theorem scanLoop_spec (data : List Int) :
    ∀ (k i m : Nat), i + k = data.length → ScanInv data i m →
      ∃ r, scanLoop data k i m = .ok r ∧ ScanInv data data.length r := by
  intro k
  induction k with
  | zero =>
    intro i m hlen hinv
    have hi : i = data.length := by omega
    subst hi
    exact ⟨m, rfl, hinv⟩
  | succ k ih =>
    intro i m hlen hinv
    obtain ⟨hmi, b, hb, hle, hlt⟩ := hinv
    have hi : i < data.length := by omega
    have ha : data[i]? = some data[i] := List.getElem?_eq_getElem hi
    have hstep : scanLoop data (k + 1) i m
        = scanLoop data k (i + 1) (if data[i] > b then i else m) := by
      simp only [scanLoop, ha, hb]
    rw [hstep]
    apply ih (i + 1) _ (by omega)
    by_cases hgt : data[i] > b
    · rw [if_pos hgt]
      refine ⟨by omega, data[i], ha, ?_, ?_⟩
      · intro j a hj hja
        rcases Nat.lt_succ_iff_lt_or_eq.mp hj with h | h
        · have := hle j a h hja
          omega
        · subst h
          rw [ha] at hja
          cases hja
          exact le_refl _
      · intro j a hj hja
        have := hle j a hj hja
        omega
    · rw [if_neg hgt]
      refine ⟨by omega, b, hb, ?_, hlt⟩
      intro j a hj hja
      rcases Nat.lt_succ_iff_lt_or_eq.mp hj with h | h
      · exact hle j a h hja
      · subst h
        rw [ha] at hja
        cases hja
        omega

theorem scan_spec (t : TfLiteTensor) (n : Nat) (hdims : t.dims[1]? = some (n : Int))
    (hn : 1 ≤ n) (hlen : t.data.length = n) :
    ∃ m b, scan t = .ok m ∧ m < n ∧ t.data[m]? = some b ∧
      (∀ (j : Nat) (a : Int), t.data[j]? = some a → a ≤ b) ∧
      (∀ j a, j < m → t.data[j]? = some a → a < b) := by
  have h0 : 0 < t.data.length := by omega
  have hinit : ScanInv t.data 1 0 := by
    refine ⟨by omega, t.data[0], List.getElem?_eq_getElem h0, ?_, ?_⟩
    · intro j a hj hja
      have hj0 : j = 0 := by omega
      subst hj0
      rw [List.getElem?_eq_getElem h0] at hja
      cases hja
      exact le_refl _
    · intro j a hj
      omega
  have hk : 1 + ((n : Int) - 1).toNat = t.data.length := by omega
  obtain ⟨r, hr, hrn, b, hb, hle, hlt⟩ := scanLoop_spec t.data _ 1 0 hk hinit
  refine ⟨r, b, ?_, by omega, hb, ?_, hlt⟩
  · simp only [scan, hdims]
    exact hr
  · intro j a hja
    have hj : j < t.data.length := by
      by_contra hcon
      have hnone : t.data[j]? = none := List.getElem?_eq_none (by omega)
      rw [hnone] at hja
      cases hja
    exact hle j a hj hja

/-! ## Lemmas on the copy loop -/

theorem copyLoop_spec (buffer : List Nat) :
    ∀ (k i : Nat) (data : List Int), i + k ≤ buffer.length → i + k ≤ data.length →
      ∃ r, copyLoop buffer k i data = .ok r ∧ r.length = data.length ∧
        ∀ j : Nat, r[j]? =
          if i ≤ j ∧ j < i + k then (buffer[j]?).map static_cast_int8 else data[j]? := by
  intro k
  induction k with
  | zero =>
    intro i data _ _
    refine ⟨data, rfl, rfl, ?_⟩
    intro j
    have : ¬ (i ≤ j ∧ j < i + 0) := by omega
    rw [if_neg this]
  | succ k ih =>
    intro i data hb hd
    have hib : i < buffer.length := by omega
    have hid : i < data.length := by omega
    have hbi : buffer[i]? = some buffer[i] := List.getElem?_eq_getElem hib
    have hstep : copyLoop buffer (k + 1) i data
        = copyLoop buffer k (i + 1) (data.set i (static_cast_int8 buffer[i])) := by
      simp only [copyLoop, hbi, hid, if_true]
    obtain ⟨r, hr, hlen, hget⟩ :=
      ih (i + 1) (data.set i (static_cast_int8 buffer[i])) (by omega)
        (by rw [List.length_set]; omega)
    refine ⟨r, by rw [hstep, hr], by rw [hlen, List.length_set], ?_⟩
    intro j
    rw [hget j]
    by_cases h1 : i + 1 ≤ j ∧ j < i + 1 + k
    · rw [if_pos h1, if_pos (by omega)]
    · rw [if_neg h1]
      by_cases h2 : j = i
      · subst h2
        rw [if_pos (by omega), hbi, List.getElem?_set_self hid]
        rfl
      · rw [if_neg (by omega), List.getElem?_set_ne (by omega)]

/-- For a byte value the cast is the two's-complement reading. -/
theorem static_cast_int8_byte (b : Nat) (hb : b < 256) :
    static_cast_int8 b = if b < 128 then (b : Int) else (b : Int) - 256 := by
  unfold static_cast_int8
  rw [Nat.mod_eq_of_lt hb]

/-- Reading past the end of the buffer: a buffer shorter than the loop bound makes the copy
loop fault. -/
theorem copyLoop_short (buffer : List Nat) :
    ∀ (k i : Nat) (data : List Int), buffer.length < i + k → i + k ≤ data.length →
      i ≤ buffer.length → copyLoop buffer k i data = .error .bufferOverread := by
  intro k
  induction k with
  | zero => intro i data h1 _ h3; omega
  | succ k ih =>
    intro i data h1 h2 h3
    by_cases hib : i < buffer.length
    · have hbi : buffer[i]? = some buffer[i] := List.getElem?_eq_getElem hib
      have hid : i < data.length := by omega
      have hstep : copyLoop buffer (k + 1) i data
          = copyLoop buffer k (i + 1) (data.set i (static_cast_int8 buffer[i])) := by
        simp only [copyLoop, hbi, hid, if_true]
      rw [hstep]
      exact ih (i + 1) _ (by omega) (by rw [List.length_set]; omega) (by omega)
    · have hbi : buffer[i]? = none := List.getElem?_eq_none (by omega)
      simp only [copyLoop, hbi]

/-! ## Lemmas on `LoadImage`, the counter and `loop` -/

theorem LoadImage_missing (files : List (String × File)) (filename : String)
    (t : Option TfLiteTensor) (h : files.lookup filename = none) :
    LoadImage files filename t = .ok (false, t, [.failedToOpen filename]) := by
  simp only [LoadImage, h]

/-- A `true` result of `LoadImage` leaves a tensor behind the handle. -/
theorem LoadImage_true_isSome (files : List (String × File)) (filename : String)
    (t input : Option TfLiteTensor) (ev : List Event)
    (h : LoadImage files filename t = .ok (true, input, ev)) : input.isSome = true := by
  unfold LoadImage at h
  split at h
  · cases h
  · split at h
    · cases h
    · split at h
      · cases h
      · split at h
        · cases h
        · cases h
          rfl

/-- A buffer shorter than the tensor makes `LoadImage` read past its end. -/
theorem LoadImage_short (files : List (String × File)) (filename : String) (file : File)
    (t : TfLiteTensor) (hfile : files.lookup filename = some file) (hread : file.read_ok = true)
    (hshort : file.bytes.length < t.bytes) (hstore : t.bytes ≤ t.data.length) :
    LoadImage files filename (some t) = .error .bufferOverread := by
  have hcopy := copyLoop_short file.bytes t.bytes 0 t.data (by omega) (by omega) (by omega)
  simp only [LoadImage, hfile, hread, hcopy]
  rfl

theorem wrapInt32_of_range (x : Int) (h1 : -2147483648 ≤ x) (h2 : x < 2147483648) :
    wrapInt32 x = x := by
  unfold wrapInt32
  omega

theorem nextCount_of_range (c : Constants) (n : Int) (h1 : -2147483648 ≤ n)
    (h2 : n < 2147483647) :
    nextCount c n = if n + 1 ≥ c.kInferencesPerCycle then 0 else n + 1 := by
  unfold nextCount
  rw [wrapInt32_of_range (n + 1) (by omega) (by omega)]

theorem nextCount_range (c : Constants) (n : Int) (hK : 1 ≤ c.kInferencesPerCycle)
    (h0 : 0 ≤ n) (h1 : n < 2147483647) :
    0 ≤ nextCount c n ∧ nextCount c n < c.kInferencesPerCycle := by
  rw [nextCount_of_range c n (by omega) h1]
  by_cases h : n + 1 ≥ c.kInferencesPerCycle
  · rw [if_pos h]
    omega
  · rw [if_neg h]
    omega

theorem cycleFails_iff (env : CycleEnv) (g : Globals) :
    cycleFails env g = true ↔
      (∃ input ev, LoadImage env.files (image_path env.rand) g.input
          = .ok (false, input, ev)) ∨ env.invoke_status ≠ .kTfLiteOk := by
  unfold cycleFails
  split
  · rename_i input ev h
    simp only [true_iff]
    exact Or.inl ⟨input, ev, h⟩
  · rename_i hne
    simp only [decide_eq_true_eq]
    constructor
    · intro h
      exact Or.inr h
    · rintro (⟨input, ev, h⟩ | h)
      · exact absurd h (hne input ev)
      · exact h

/-- The two ways a call of `loop` returns: a failed cycle (no prediction line, counter
untouched) or a completed one (counter stepped). -/
theorem loop_cases (c : Constants) (env : CycleEnv) (g g1 : Globals) (ev : List Event)
    (h : loop c env g = .ok (g1, ev)) :
    (cycleFails env g = true ∧ g1.inference_count = g.inference_count ∧
        ∀ e ∈ ev, e.isPrediction = false) ∨
    (cycleFails env g = false ∧ g1.inference_count = nextCount c g.inference_count ∧
        ∃ label, Event.prediction (image_path env.rand) label ∈ ev) := by
  unfold loop at h
  simp only at h
  split at h
  · cases h
  · rename_i input ev0 hload
    cases h
    left
    refine ⟨(cycleFails_iff env g).mpr (Or.inl ⟨input, ev0, hload⟩), rfl, ?_⟩
    intro e he
    have hload2 := hload
    unfold LoadImage at hload2
    simp only [List.mem_append, List.mem_map, List.mem_singleton] at he
    rcases he with (⟨x, _, rfl⟩ | he) | rfl
    · unfold probe
      split <;> rfl
    · split at hload2
      · cases hload2
        simp only [List.mem_singleton] at he
        subst he
        rfl
      · split at hload2
        · cases hload2
          simp only [List.mem_singleton] at he
          subst he
          rfl
        · split at hload2
          · cases hload2
          · split at hload2 <;> cases hload2
    · rfl
  · rename_i input ev0 hload
    split at h
    · cases h
    · split at h
      · rename_i hst
        cases h
        left
        refine ⟨(cycleFails_iff env g).mpr (Or.inr hst), rfl, ?_⟩
        intro e he
        have hload2 := hload
        unfold LoadImage at hload2
        simp only [List.mem_append, List.mem_map, List.mem_cons, List.mem_singleton,
          List.not_mem_nil, or_false] at he
        rcases he with (⟨x, _, rfl⟩ | he) | rfl | rfl
        · unfold probe
          split <;> rfl
        · split at hload2
          · cases hload2
          · split at hload2
            · cases hload2
            · split at hload2
              · cases hload2
              · split at hload2
                · cases hload2
                · cases hload2
                  simp only [List.mem_singleton] at he
                  subst he
                  rfl
        · rfl
        · rfl
      · rename_i hst
        split at h
        · cases h
        · split at h
          · cases h
          · rename_i label _
            cases h
            right
            refine ⟨?_, rfl, label, ?_⟩
            · rw [← Bool.not_eq_true, cycleFails_iff]
              rintro (⟨i2, e2, h2⟩ | h2)
              · rw [hload] at h2
                cases h2
              · exact hst h2
            · simp

/-! ## Label Decision Logic -/

/-- C1 (as amended): for an output tensor of `n ≥ 1` scores the scan returns an index
`max_index < n` whose score is at least every score and strictly above every score at a lower
index (arg-max, ties to the lowest index); whenever that index is below 3, the size of the
label table, the predicted label is the table entry at that index.  Scores `[5, 5, 3]` give
index 0 and label "cebollas". -/
theorem scan_argmax_lowest_index (t : TfLiteTensor) (n : Nat)
    (hdims : t.dims[1]? = some (n : Int)) (hn : 1 ≤ n) (hlen : t.data.length = n) :
    (∃ m b, scan t = .ok m ∧ m < n ∧ t.data[m]? = some b ∧
      (∀ (j : Nat) (a : Int), t.data[j]? = some a → a ≤ b) ∧
      (∀ (j : Nat) (a : Int), j < m → t.data[j]? = some a → a < b) ∧
      (m < 3 → ∃ label, kCategoryLabels[m]? = some label ∧ predicted_label t = .ok label)) ∧
    scan (outputOf [5, 5, 3]) = .ok 0 ∧
    predicted_label (outputOf [5, 5, 3]) = .ok "cebollas" := by
  refine ⟨?_, rfl, rfl⟩
  obtain ⟨m, b, hscan, hm, hb, hle, hlt⟩ := scan_spec t n hdims hn hlen
  refine ⟨m, b, hscan, hm, hb, hle, hlt, ?_⟩
  intro hm3
  have hm3len : m < kCategoryLabels.length := hm3
  refine ⟨kCategoryLabels[m], List.getElem?_eq_getElem hm3len, ?_⟩
  simp only [predicted_label, hscan, lookupLabel, List.getElem?_eq_getElem hm3len]

theorem scan_argmax_lowest_index_witness :
    (∃ m b, scan (outputOf [5, 5, 3]) = .ok m ∧ m < 3 ∧ (outputOf [5, 5, 3]).data[m]? = some b ∧
      (∀ (j : Nat) (a : Int), (outputOf [5, 5, 3]).data[j]? = some a → a ≤ b) ∧
      (∀ (j : Nat) (a : Int), j < m → (outputOf [5, 5, 3]).data[j]? = some a → a < b) ∧
      (m < 3 → ∃ label, kCategoryLabels[m]? = some label ∧
        predicted_label (outputOf [5, 5, 3]) = .ok label)) ∧
    scan (outputOf [5, 5, 3]) = .ok 0 ∧
    predicted_label (outputOf [5, 5, 3]) = .ok "cebollas" :=
  scan_argmax_lowest_index (outputOf [5, 5, 3]) 3 rfl (by decide) rfl

/-- C1 counterexample: with the four scores `[0, 0, 0, 1]` the scan returns index 3, the
label table has no entry at index 3, and the lookup reads past the table, so no table entry
is the predicted label. -/
theorem predicted_label_outside_table :
    (outputOf [0, 0, 0, 1]).dims[1]? = some 4 ∧ (outputOf [0, 0, 0, 1]).data.length = 4 ∧
    scan (outputOf [0, 0, 0, 1]) = .ok 3 ∧ kCategoryLabels[3]? = none ∧
    predicted_label (outputOf [0, 0, 0, 1]) = .error .labelOutOfBounds ∧
    ¬ ∃ label, predicted_label (outputOf [0, 0, 0, 1]) = .ok label := by
  refine ⟨rfl, rfl, rfl, rfl, rfl, ?_⟩
  rintro ⟨label, h⟩
  have h2 : predicted_label (outputOf [0, 0, 0, 1]) = .error .labelOutOfBounds := rfl
  rw [h2] at h
  cases h

/-- C9: in a cycle whose image loads and whose `Invoke` succeeds, if the output tensor has
exactly three class scores (`dims->data[1] = 3`, three elements), then whatever the scores
are the scan returns `max_index < 3`, the label table has an entry at that index, and `loop`
returns normally printing that entry: no score read and no table lookup is out of bounds. -/
theorem loop_label_lookup_in_bounds (c : Constants) (env : CycleEnv) (g : Globals)
    (interp : MicroInterpreter) (out : TfLiteTensor) (input : Option TfLiteTensor)
    (ev : List Event)
    (hload : LoadImage env.files (image_path env.rand) g.input = .ok (true, input, ev))
    (hint : g.interpreter = some interp) (hout : g.output = some out)
    (hok : env.invoke_status = .kTfLiteOk)
    (hdims : out.dims[1]? = some 3) (hlen : env.invoke_scores.length = 3) :
    ∃ m label, scan { out with data := env.invoke_scores } = .ok m ∧ m < 3 ∧
      kCategoryLabels[m]? = some label ∧
      loop c env g = .ok
        ({ g with input := input, output := some { out with data := env.invoke_scores },
                  inference_count := nextCount c g.inference_count },
         images.map (probe env.files) ++ ev ++
          [.invokeCalled, .prediction (image_path env.rand) label]) := by
  obtain ⟨m, b, hscan, hm, -, -, -⟩ :=
    scan_spec { out with data := env.invoke_scores } 3 hdims (by decide) hlen
  have hm3len : m < kCategoryLabels.length := hm
  have hlabel : predicted_label { out with data := env.invoke_scores }
      = .ok kCategoryLabels[m] := by
    simp only [predicted_label, hscan, lookupLabel, List.getElem?_eq_getElem hm3len]
  refine ⟨m, kCategoryLabels[m], hscan, hm, List.getElem?_eq_getElem hm3len, ?_⟩
  simp only [loop, hload, hint, hout, hok, Option.map_some', ne_eq, not_true_eq_false,
    if_false, hlabel]

theorem loop_label_lookup_in_bounds_witness :
    ∃ m label, scan { outputOf [0, 0, 0] with data := goodEnv.invoke_scores } = .ok m ∧
      m < 3 ∧ kCategoryLabels[m]? = some label ∧
      loop c5 goodEnv readyGlobals = .ok
        ({ readyGlobals with
            input := some { input4 with data := [1, -56, 3, -1] },
            output := some { outputOf [0, 0, 0] with data := goodEnv.invoke_scores },
            inference_count := nextCount c5 readyGlobals.inference_count },
         images.map (probe goodEnv.files) ++ [.loaded "images/cebolla.jpg"] ++
          [.invokeCalled, .prediction (image_path goodEnv.rand) label]) :=
  loop_label_lookup_in_bounds c5 goodEnv readyGlobals {} (outputOf [0, 0, 0])
    (some { input4 with data := [1, -56, 3, -1] }) [.loaded "images/cebolla.jpg"]
    rfl rfl rfl rfl rfl rfl

/-! ## Tensor Filler -/

/-- C4: when the file opens and reads, its bytes are byte values, the buffer is at least
`tensor.bytes` long and the tensor's storage holds `tensor.bytes` elements, `LoadImage`
succeeds and afterwards element `i < tensor.bytes` is the `i`-th buffer byte read as a signed
8-bit value (`b` below 128, `b - 256` otherwise); the storage keeps its length, every element
from index `tensor.bytes` on is untouched, and `bytes` and `dims` are unchanged. -/
theorem LoadImage_copies_bytes (files : List (String × File)) (filename : String) (file : File)
    (t : TfLiteTensor) (hfile : files.lookup filename = some file)
    (hread : file.read_ok = true) (hbyte : ∀ b ∈ file.bytes, b < 256)
    (hbuf : t.bytes ≤ file.bytes.length) (hstore : t.bytes ≤ t.data.length) :
    ∃ data, LoadImage files filename (some t)
        = .ok (true, some { t with data := data }, [.loaded filename]) ∧
      data.length = t.data.length ∧
      (∀ (i b : Nat), i < t.bytes → file.bytes[i]? = some b →
        data[i]? = some (if b < 128 then (b : Int) else (b : Int) - 256)) ∧
      (∀ i : Nat, t.bytes ≤ i → data[i]? = t.data[i]?) := by
  obtain ⟨r, hr, hlen, hget⟩ :=
    copyLoop_spec file.bytes t.bytes 0 t.data (by omega) (by omega)
  refine ⟨r, ?_, hlen, ?_, ?_⟩
  · simp only [LoadImage, hfile, hread, hr]
    rfl
  · intro i b hi hb
    rw [hget i, if_pos (by omega), hb, Option.map_some']
    have hb256 : b < 256 := hbyte b (List.getElem?_mem hb)
    rw [static_cast_int8_byte b hb256]
  · intro i hi
    rw [hget i, if_neg (by omega)]

theorem LoadImage_copies_bytes_witness :
    ∃ data, LoadImage files3 "images/cebolla.jpg" (some input4)
        = .ok (true, some { input4 with data := data }, [.loaded "images/cebolla.jpg"]) ∧
      data.length = input4.data.length ∧
      (∀ (i b : Nat), i < input4.bytes → [1, 200, 3, 255][i]? = some b →
        data[i]? = some (if b < 128 then (b : Int) else (b : Int) - 256)) ∧
      (∀ i : Nat, input4.bytes ≤ i → data[i]? = input4.data[i]?) :=
  LoadImage_copies_bytes files3 "images/cebolla.jpg" { bytes := [1, 200, 3, 255], read_ok := true }
    input4 rfl rfl (by decide) (by decide) (by decide)

/-- C5: a two-byte file loaded into the four-byte tensor: `LoadImage` neither returns false
nor stops the copy at the end of the buffer, it reads `buffer[2]` past the end. -/
theorem LoadImage_short_file_overreads :
    LoadImage [("images/cebolla.jpg", { bytes := [1, 2], read_ok := true })]
      "images/cebolla.jpg" (some input4) = .error .bufferOverread := by
  rfl

/-! ## Error paths of `loop` -/

/-- C6: for a path that cannot be opened `LoadImage` reports the failure and returns false
with the tensor behind the handle untouched, and a cycle of `loop` that selected this path
returns with the globals unchanged, having reported the failure, without calling `Invoke` and
without a prediction line. -/
theorem missing_image_skips_cycle (files : List (String × File)) (filename : String)
    (hmiss : files.lookup filename = none) :
    (∀ t, LoadImage files filename t = .ok (false, t, [.failedToOpen filename])) ∧
    ∀ (c : Constants) (env : CycleEnv) (g : Globals),
      env.files = files → image_path env.rand = filename →
      loop c env g = .ok (g, images.map (probe files) ++
        [.failedToOpen filename, .failedToLoad filename]) ∧
      ∀ e ∈ images.map (probe files) ++ [Event.failedToOpen filename, .failedToLoad filename],
        e ≠ .invokeCalled ∧ e.isPrediction = false := by
  refine ⟨fun t => LoadImage_missing files filename t hmiss, ?_⟩
  intro c env g hfiles hpath
  constructor
  · simp only [loop, hfiles, hpath, LoadImage_missing files filename g.input hmiss,
      List.append_assoc, List.singleton_append]
  · intro e he
    simp only [List.mem_append, List.mem_map, List.mem_cons, List.mem_singleton,
      List.not_mem_nil, or_false] at he
    rcases he with ⟨x, _, rfl⟩ | rfl | rfl
    · unfold probe
      split
      · exact ⟨fun h => Event.noConfusion h, rfl⟩
      · exact ⟨fun h => Event.noConfusion h, rfl⟩
    · exact ⟨fun h => Event.noConfusion h, rfl⟩
    · exact ⟨fun h => Event.noConfusion h, rfl⟩

theorem missing_image_skips_cycle_witness :
    (∀ t, LoadImage [] "images/cebolla.jpg" t
      = .ok (false, t, [.failedToOpen "images/cebolla.jpg"])) ∧
    ∀ (c : Constants) (env : CycleEnv) (g : Globals),
      env.files = [] → image_path env.rand = "images/cebolla.jpg" →
      loop c env g = .ok (g, images.map (probe []) ++
        [.failedToOpen "images/cebolla.jpg", .failedToLoad "images/cebolla.jpg"]) ∧
      ∀ e ∈ images.map (probe []) ++
          [Event.failedToOpen "images/cebolla.jpg", .failedToLoad "images/cebolla.jpg"],
        e ≠ .invokeCalled ∧ e.isPrediction = false :=
  missing_image_skips_cycle [] "images/cebolla.jpg" rfl

/-- C7: in the Ready state, when the image loads and `Invoke` reports a non-success status,
`loop` returns normally right after reporting the failure: the output is the probe lines, the
loader's line, the `Invoke` call and the failure line, with no prediction line; this holds
whatever `Invoke` left in the output tensor (it is not read); only the two tensors behind
the handles changed, so the counter, the model and the interpreter are as before, and the
driver is still Ready for the next cycle. -/
theorem invoke_failure_aborts_cycle (c : Constants) (env : CycleEnv) (g : Globals)
    (input : Option TfLiteTensor) (ev : List Event) (hready : Ready g = true)
    (hload : LoadImage env.files (image_path env.rand) g.input = .ok (true, input, ev))
    (hfail : env.invoke_status ≠ .kTfLiteOk) :
    (∀ scores : List Int,
      loop c { env with invoke_scores := scores } g
        = .ok ({ g with input := input,
                        output := g.output.map (fun t => { t with data := scores }) },
               images.map (probe env.files) ++ ev ++
                [.invokeCalled, .invokeFailed (image_path env.rand)]) ∧
      Ready { g with input := input,
                     output := g.output.map (fun t => { t with data := scores }) } = true) ∧
    ∀ e ∈ images.map (probe env.files) ++ ev ++
        [Event.invokeCalled, .invokeFailed (image_path env.rand)], e.isPrediction = false := by
  have hsome := LoadImage_true_isSome _ _ _ _ _ hload
  have hloop : ∀ scores : List Int, loop c { env with invoke_scores := scores } g
      = .ok ({ g with input := input,
                      output := g.output.map (fun t => { t with data := scores }) },
             images.map (probe env.files) ++ ev ++
              [.invokeCalled, .invokeFailed (image_path env.rand)]) := by
    intro scores
    simp only [Ready, Bool.and_eq_true] at hready
    obtain ⟨⟨hi, -⟩, -⟩ := hready
    obtain ⟨interp, hinterp⟩ := Option.isSome_iff_exists.mp hi
    simp only [loop, hload, hinterp, ne_eq, hfail, not_false_eq_true, if_true]
  constructor
  · intro scores
    refine ⟨hloop scores, ?_⟩
    simp only [Ready, Bool.and_eq_true] at hready ⊢
    obtain ⟨⟨hi, -⟩, ho⟩ := hready
    refine ⟨⟨hi, hsome⟩, ?_⟩
    obtain ⟨out, hout⟩ := Option.isSome_iff_exists.mp ho
    rw [hout]
    rfl
  · intro e he
    have h := hloop env.invoke_scores
    rcases loop_cases c env g _ _ h with ⟨-, -, hnp⟩ | ⟨hnf, -, -⟩
    · exact hnp e he
    · rw [(cycleFails_iff env g).mpr (Or.inr hfail)] at hnf
      cases hnf

theorem invoke_failure_aborts_cycle_witness :
    (∀ scores : List Int,
      loop c5 { invokeErrEnv with invoke_scores := scores } readyGlobals
        = .ok ({ readyGlobals with
                  input := some { input4 with data := [7, 7, 7, 7] },
                  output := readyGlobals.output.map (fun t => { t with data := scores }) },
               images.map (probe invokeErrEnv.files) ++ [.loaded "images/papa.jpg"] ++
                [.invokeCalled, .invokeFailed (image_path invokeErrEnv.rand)]) ∧
      Ready { readyGlobals with
                input := some { input4 with data := [7, 7, 7, 7] },
                output := readyGlobals.output.map (fun t => { t with data := scores }) }
        = true) ∧
    ∀ e ∈ images.map (probe invokeErrEnv.files) ++ [.loaded "images/papa.jpg"] ++
        [Event.invokeCalled, .invokeFailed (image_path invokeErrEnv.rand)],
      e.isPrediction = false :=
  invoke_failure_aborts_cycle c5 invokeErrEnv readyGlobals
    (some { input4 with data := [7, 7, 7, 7] }) [.loaded "images/papa.jpg"] rfl rfl
    (by decide)

/-! ## `setup` failures -/

/-- C3: `setup` from the initial globals with a model whose schema version differs from
`TFLITE_SCHEMA_VERSION` reports the mismatch and returns with the interpreter still null and
the input and output handles still null; the driver is not Ready. -/
theorem setup_schema_mismatch (c : Constants) (env : SetupEnv)
    (hver : env.model_version ≠ c.TFLITE_SCHEMA_VERSION) :
    (setup c env initGlobals).1.interpreter = none ∧
    (setup c env initGlobals).1.input = none ∧
    (setup c env initGlobals).1.output = none ∧
    Ready (setup c env initGlobals).1 = false ∧
    (setup c env initGlobals).2
      = [.schemaMismatch env.model_version c.TFLITE_SCHEMA_VERSION] := by
  simp only [setup, ne_eq, hver, not_false_eq_true, if_true, initGlobals, Ready,
    Option.isSome_none, Bool.false_and, and_self]

theorem setup_schema_mismatch_witness :
    (setup c5 ⟨2, .kTfLiteOk, some input4, some (outputOf [0, 0, 0])⟩ initGlobals).1.interpreter
      = none ∧
    (setup c5 ⟨2, .kTfLiteOk, some input4, some (outputOf [0, 0, 0])⟩ initGlobals).1.input
      = none ∧
    (setup c5 ⟨2, .kTfLiteOk, some input4, some (outputOf [0, 0, 0])⟩ initGlobals).1.output
      = none ∧
    Ready (setup c5 ⟨2, .kTfLiteOk, some input4, some (outputOf [0, 0, 0])⟩ initGlobals).1
      = false ∧
    (setup c5 ⟨2, .kTfLiteOk, some input4, some (outputOf [0, 0, 0])⟩ initGlobals).2
      = [.schemaMismatch 2 3] :=
  setup_schema_mismatch c5 ⟨2, .kTfLiteOk, some input4, some (outputOf [0, 0, 0])⟩ (by decide)

/-- C8: whenever `setup`, called from the initial globals, fails (schema version mismatch, or
matching version and `AllocateTensors` not `kTfLiteOk`), it returns with the input and output
handles still null and the driver not Ready; on the allocation failure path the interpreter
is already bound and the failure is reported. -/
theorem setup_failure_leaves_tensors_unbound (c : Constants) (env : SetupEnv)
    (hfail : env.model_version ≠ c.TFLITE_SCHEMA_VERSION ∨
      env.allocate_status ≠ .kTfLiteOk) :
    (setup c env initGlobals).1.input = none ∧
    (setup c env initGlobals).1.output = none ∧
    Ready (setup c env initGlobals).1 = false ∧
    (env.model_version = c.TFLITE_SCHEMA_VERSION →
      (setup c env initGlobals).1.interpreter = some {} ∧
      (setup c env initGlobals).2 = [.allocateFailed]) := by
  by_cases hver : env.model_version = c.TFLITE_SCHEMA_VERSION
  · have halloc : env.allocate_status ≠ .kTfLiteOk := by
      rcases hfail with h | h
      · exact absurd hver h
      · exact h
    simp only [setup, ne_eq, hver, not_true_eq_false, if_false, halloc, not_false_eq_true,
      if_true, initGlobals, Ready, Option.isSome_none, Bool.and_false, Bool.false_and,
      and_self, implies_true]
  · simp only [setup, ne_eq, hver, not_false_eq_true, if_true, initGlobals, Ready,
      Option.isSome_none, Bool.false_and, and_self, false_implies]

theorem setup_failure_leaves_tensors_unbound_witness :
    (setup c5 ⟨3, .kTfLiteError, some input4, some (outputOf [0, 0, 0])⟩ initGlobals).1.input
      = none ∧
    (setup c5 ⟨3, .kTfLiteError, some input4, some (outputOf [0, 0, 0])⟩ initGlobals).1.output
      = none ∧
    Ready (setup c5 ⟨3, .kTfLiteError, some input4, some (outputOf [0, 0, 0])⟩ initGlobals).1
      = false ∧
    ((3 : Nat) = c5.TFLITE_SCHEMA_VERSION →
      (setup c5 ⟨3, .kTfLiteError, some input4, some (outputOf [0, 0, 0])⟩
        initGlobals).1.interpreter = some {} ∧
      (setup c5 ⟨3, .kTfLiteError, some input4, some (outputOf [0, 0, 0])⟩ initGlobals).2
        = [.allocateFailed]) :=
  setup_failure_leaves_tensors_unbound c5
    ⟨3, .kTfLiteError, some input4, some (outputOf [0, 0, 0])⟩ (Or.inr (by decide))

/-! ## Inference Counter -/

/-- C2 (as amended): for a call of `loop` that returns, with the counter an `int` below
`INT_MAX` before the call: if the cycle completes (image loaded, `Invoke` succeeded) the counter
is the old value plus 1, or 0 when that sum reaches `kInferencesPerCycle`; if the cycle fails
the counter is unchanged.  With threshold 5 and the counter at 0, five consecutive completed
cycles leave it at 1, 2, 3, 4, 0. -/
theorem loop_counter_step (c : Constants) (env : CycleEnv) (g g1 : Globals) (ev : List Event)
    (hmin : -2147483648 ≤ g.inference_count) (hmax : g.inference_count < 2147483647)
    (hloop : loop c env g = .ok (g1, ev)) :
    (cycleFails env g = false →
      g1.inference_count
        = if g.inference_count + 1 ≥ c.kInferencesPerCycle then 0 else g.inference_count + 1) ∧
    (cycleFails env g = true → g1.inference_count = g.inference_count) ∧
    countTrace c5 [goodEnv, goodEnv, goodEnv, goodEnv, goodEnv] readyGlobals
      = .ok [1, 2, 3, 4, 0] := by
  refine ⟨?_, ?_, rfl⟩
  · intro hok
    rcases loop_cases c env g g1 ev hloop with ⟨hf, -, -⟩ | ⟨-, hcount, -⟩
    · rw [hok] at hf
      cases hf
    · rw [hcount, nextCount_of_range c _ hmin hmax]
  · intro hf
    rcases loop_cases c env g g1 ev hloop with ⟨-, hcount, -⟩ | ⟨hok, -, -⟩
    · exact hcount
    · rw [hf] at hok
      cases hok

theorem loop_counter_step_witness :
    (cycleFails goodEnv readyGlobals = false →
      ({ readyGlobals with
          input := some { input4 with data := [1, -56, 3, -1] },
          output := some (outputOf [5, 5, 3]),
          inference_count := 1 } : Globals).inference_count
        = if readyGlobals.inference_count + 1 ≥ c5.kInferencesPerCycle then 0
          else readyGlobals.inference_count + 1) ∧
    (cycleFails goodEnv readyGlobals = true →
      ({ readyGlobals with
          input := some { input4 with data := [1, -56, 3, -1] },
          output := some (outputOf [5, 5, 3]),
          inference_count := 1 } : Globals).inference_count
        = readyGlobals.inference_count) ∧
    countTrace c5 [goodEnv, goodEnv, goodEnv, goodEnv, goodEnv] readyGlobals
      = .ok [1, 2, 3, 4, 0] :=
  loop_counter_step c5 goodEnv readyGlobals
    { readyGlobals with
        input := some { input4 with data := [1, -56, 3, -1] },
        output := some (outputOf [5, 5, 3]),
        inference_count := 1 }
    (images.map (probe goodEnv.files) ++ [Event.loaded "images/cebolla.jpg"] ++
      [Event.invokeCalled, Event.prediction "images/cebolla.jpg" "cebollas"])
    (by decide) (by decide) rfl

/-- C2 counterexample: a cycle that fails because the image is missing returns with the
counter still at 0, not incremented to 1; five such cycles with threshold 5 leave the counter
at 0, 0, 0, 0, 0. -/
theorem failed_cycle_does_not_count :
    cycleFails missingEnv readyGlobals = true ∧
    (∃ g1 ev, loop c5 missingEnv readyGlobals = .ok (g1, ev) ∧ g1.inference_count = 0 ∧
      g1.inference_count ≠ readyGlobals.inference_count + 1) ∧
    countTrace c5 [missingEnv, missingEnv, missingEnv, missingEnv, missingEnv] readyGlobals
      = .ok [0, 0, 0, 0, 0] := by
  refine ⟨rfl, ⟨_, _, rfl, rfl, by decide⟩, rfl⟩

/-- Invariant step: `loop` keeps the counter inside `[0, kInferencesPerCycle)`. -/
theorem loop_preserves_range (c : Constants) (hK : 1 ≤ c.kInferencesPerCycle)
    (hKmax : c.kInferencesPerCycle ≤ 2147483647) (env : CycleEnv) (g g1 : Globals)
    (ev : List Event) (hloop : loop c env g = .ok (g1, ev))
    (h0 : 0 ≤ g.inference_count) (h1 : g.inference_count < c.kInferencesPerCycle) :
    0 ≤ g1.inference_count ∧ g1.inference_count < c.kInferencesPerCycle := by
  rcases loop_cases c env g g1 ev hloop with ⟨-, hcount, -⟩ | ⟨-, hcount, -⟩
  · rw [hcount]
    exact ⟨h0, h1⟩
  · rw [hcount]
    exact nextCount_range c _ hK h0 (by omega)

theorem runLoops_preserves_range (c : Constants) (hK : 1 ≤ c.kInferencesPerCycle)
    (hKmax : c.kInferencesPerCycle ≤ 2147483647) :
    ∀ (envs : List CycleEnv) (g g1 : Globals), runLoops c envs g = .ok g1 →
      0 ≤ g.inference_count → g.inference_count < c.kInferencesPerCycle →
      0 ≤ g1.inference_count ∧ g1.inference_count < c.kInferencesPerCycle := by
  intro envs
  induction envs with
  | nil =>
    intro g g1 hrun h0 h1
    cases hrun
    exact ⟨h0, h1⟩
  | cons env envs ih =>
    intro g g1 hrun h0 h1
    unfold runLoops at hrun
    split at hrun
    · cases hrun
    · rename_i g2 ev hloop
      obtain ⟨h0', h1'⟩ := loop_preserves_range c hK hKmax env g g2 ev hloop h0 h1
      exact ih g2 g1 hrun h0' h1'

/-- C10: with `1 ≤ kInferencesPerCycle` (an `int`, so at most `INT_MAX`), after a `setup`
that succeeds (matching schema version, `AllocateTensors` ok) and any sequence of `loop`
calls, completed or failed, the counter satisfies `0 ≤ inference_count <
kInferencesPerCycle`; and a failed cycle leaves the counter unchanged. -/
theorem inference_count_in_range (c : Constants) (hK : 1 ≤ c.kInferencesPerCycle)
    (hKmax : c.kInferencesPerCycle ≤ 2147483647) (senv : SetupEnv) (g0 : Globals)
    (hver : senv.model_version = c.TFLITE_SCHEMA_VERSION)
    (halloc : senv.allocate_status = .kTfLiteOk)
    (envs : List CycleEnv) (g : Globals)
    (hrun : runLoops c envs (setup c senv g0).1 = .ok g) :
    (0 ≤ g.inference_count ∧ g.inference_count < c.kInferencesPerCycle) ∧
    ∀ (env : CycleEnv) (ga gb : Globals) (ev : List Event),
      loop c env ga = .ok (gb, ev) → cycleFails env ga = true →
      gb.inference_count = ga.inference_count := by
  constructor
  · apply runLoops_preserves_range c hK hKmax envs _ g hrun
    · simp only [setup, ne_eq, hver, not_true_eq_false, if_false, halloc, le_refl]
    · simp only [setup, ne_eq, hver, not_true_eq_false, if_false, halloc]
      omega
  · intro env ga gb ev hloop hf
    rcases loop_cases c env ga gb ev hloop with ⟨-, hcount, -⟩ | ⟨hok, -, -⟩
    · exact hcount
    · rw [hf] at hok
      cases hok

theorem inference_count_in_range_witness :
    (0 ≤ (3 : Int) ∧ (3 : Int) < c5.kInferencesPerCycle) ∧
    ∀ (env : CycleEnv) (ga gb : Globals) (ev : List Event),
      loop c5 env ga = .ok (gb, ev) → cycleFails env ga = true →
      gb.inference_count = ga.inference_count :=
  inference_count_in_range c5 (by decide) (by decide)
    ⟨3, .kTfLiteOk, some input4, some (outputOf [0, 0, 0])⟩ initGlobals rfl rfl
    [goodEnv, missingEnv, invokeErrEnv, goodEnv, goodEnv]
    { model := some { version := 3 }, interpreter := some {},
      input := some { input4 with data := [1, -56, 3, -1] },
      output := some (outputOf [5, 5, 3]), inference_count := 3 }
    rfl

end Esp
